import Mathlib

/-!
Verification of the Marstek Venus BLE protocol engine
(`src/js/ble-protocol.js`) against its natural-language specification.

The JavaScript source is shallowly embedded: byte buffers (`Uint8Array`,
`ArrayBuffer`) become `List Nat` whose elements are in `[0, 256)`; the
final `new Uint8Array(...)` conversion in each encoder is modelled by
mapping `· % 256` over the assembled list, exactly as the typed array
truncates each stored number.  JavaScript 32-bit operations are modelled
with explicit `% 2 ^ 32` / `% 256` arithmetic.
-/

namespace MarstekBLE

/-! ## Frame codec -/

/-- `createCommandMessage` (ble-protocol.js lines 323-333).
`header = [0x73, 0, 0x23, commandType]`, then `header[1]` is set to
`header.length + payload.length + 1 = 4 + payload.length + 1`, the XOR
checksum is folded over every byte of `header ++ payload`, appended, and
the whole array is stored into a `Uint8Array` (modelled by `% 256`). -/
def createCommandMessage (commandType : Nat) (payload : List Nat) : List Nat :=
  let message := 0x73 :: (4 + payload.length + 1) :: 0x23 :: commandType :: payload
  (message ++ [message.foldl (fun a b => a ^^^ b) 0]).map (fun b => b % 256)

/-- `createMeterIPMessage` (ble-protocol.js lines 341-360).
`len = 4 + payload.length`; the checksum starts from `0x23 ^ commandType`
and folds only the payload bytes, so the `0x73` header and the length
byte are excluded from the checksum. -/
def createMeterIPMessage (commandType : Nat) (payload : List Nat) : List Nat :=
  let message := 0x73 :: (4 + payload.length) :: 0x23 :: commandType :: payload
  (message ++ [payload.foldl (fun a b => a ^^^ b) (0x23 ^^^ commandType)]).map (fun b => b % 256)

/-- `createBLEOTAFrame` (ble-protocol.js lines 396-419).
`totalLength = 1 + 1 + payload.length + 1` (cmd + reserved + payload +
checksum), stored little-endian in two bytes; the XOR checksum is folded
over the entire frame built so far, including the two length bytes. -/
def createBLEOTAFrame (command reserved : Nat) (payload : List Nat) : List Nat :=
  let totalLength := 1 + 1 + payload.length + 1
  let front := 0x73 :: totalLength % 256 :: totalLength / 256 % 256 :: command :: reserved :: payload
  (front ++ [front.foldl (fun a b => a ^^^ b) 0]).map (fun b => b % 256)

/-- Decoded OTA acknowledgment, as produced by `handleNotification`
(ble-protocol.js lines 712-737): `cmd = value[3]`, `reserved = value[4]`,
`payload = value.slice(5, -1)`. -/
structure Ack where
  cmd : Nat
  reserved : Nat
  payload : List Nat
  deriving DecidableEq

/-- The three rejection reasons of the OTA notification parser. -/
inductive DecodeError where
  | malformedHeader
  | lengthMismatch
  | checksumMismatch
  deriving DecidableEq

/-- Result of the OTA notification parser. -/
inductive DecodeResult where
  | ok (a : Ack)
  | error (e : DecodeError)
  deriving DecidableEq

/-- The parsing part of `handleNotification` (ble-protocol.js lines
697-726), in source order: reject if `value.length < 6 || value[0] !==
0x73`; reject if the declared little-endian length `value[1] | (value[2]
<< 8)` differs from `value.length`; reject if the XOR fold over all bytes
but the last differs from the trailing byte; otherwise produce the
acknowledgment. -/
def decodeOTA (value : List Nat) : DecodeResult :=
  if value.length < 6 ∨ value.getD 0 0 ≠ 0x73 then .error .malformedHeader
  else if value.getD 1 0 ||| (value.getD 2 0 <<< 8) ≠ value.length then .error .lengthMismatch
  else if (value.take (value.length - 1)).foldl (fun a b => a ^^^ b) 0 ≠
      value.getD (value.length - 1) 0 then .error .checksumMismatch
  else .ok ⟨value.getD 3 0, value.getD 4 0, (value.drop 5).dropLast⟩

/-! ## Notification router -/

/-- What the generic notification handler does with one inbound frame. -/
inductive RouterAction where
  | activationResolved (ok : Bool)
  | ackDelivered (a : Ack)
  | ackDropped (e : DecodeError)
  | genericResponse
  | unmatched
  deriving DecidableEq

/-- Modelled from the spec: `handleOTAAck`, invoked by
`createNotificationHandler` (ble-protocol.js line 594), is not defined
under `src/`; spec section 4.4 step 2 says such a frame is decoded via
the codec of section 4.1 and, if valid, the acknowledgment is delivered
to the Mailbox, while a checksum/length failure is logged and the frame
dropped. -/
def handleOTAAck (bytes : List Nat) : RouterAction :=
  match decodeOTA bytes with
  | .ok a => .ackDelivered a
  | .error e => .ackDropped e

/-- The handler returned by `createNotificationHandler` (ble-protocol.js
lines 559-621).  `activationWaiting` models `window.otaActivationResolve`
being set, `currentCommand` models `window.currentCommand` being set.
In source order: the OTA-activation branch (line 567), the OTA-ack shape
check (lines 590-596), the generic-response branch (line 600), otherwise
the notification is unmatched. -/
def routeNotification (activationWaiting currentCommand : Bool) (bytes : List Nat) :
    RouterAction :=
  if activationWaiting = true ∧ 5 ≤ bytes.length ∧ bytes.getD 0 0 = 0x73 ∧
      bytes.getD 2 0 = 0x23 ∧ bytes.getD 3 0 = 0x1F then
    let payload := (bytes.drop 4).dropLast
    .activationResolved (decide (1 ≤ payload.length ∧ payload.getD 0 0 = 0x01))
  else if 6 ≤ bytes.length ∧ bytes.getD 0 0 = 0x73 ∧
      5 < bytes.getD 1 0 ||| (bytes.getD 2 0 <<< 8) ∧
      bytes.getD 3 0 = 0xFF ∧ bytes.getD 4 0 = 0x01 then
    handleOTAAck bytes
  else if currentCommand = true then .genericResponse
  else .unmatched

/-- A well-formed OTA acknowledgment frame: declared length 8 equals the
received length, command byte `0xFF`, reserved byte `0x01`, two payload
bytes, correct XOR checksum. -/
def ackFrameExample : List Nat := [0x73, 0x08, 0x00, 0xFF, 0x01, 0x00, 0x00, 0x85]

/-! ## Acknowledgment mailbox (`waitForAck` / `handleNotification`) -/

/-- The value a `waitForAck` promise resolves to: the acknowledgment
itself, the explicit `unexpected cmd` failure, or the `timeout`
failure (ble-protocol.js lines 746-766). -/
inductive WaitResult where
  | acked (a : Ack)
  | unexpectedCmd
  | timedOut
  deriving DecidableEq

/-- The events that touch the single `pendingAckResolve` slot, in the
order the JavaScript event loop runs them:
* `register wid expectedCmd` — a `waitForAck(expectedCmd, t)` call
  installs its resolver closure into the global slot (line 748) and
  schedules its timeout callback;
* `deliver a` — `handleNotification` finishes decoding acknowledgment
  `a` and, if the slot is occupied, invokes and clears it (lines
  729-737);
* `fireTimeout wid` — the timeout callback scheduled by wait `wid`
  fires: if the global slot is occupied (by ANY wait), it clears the
  slot and resolves wait `wid` with `timeout` (lines 759-764). -/
inductive MailboxEvent where
  | register (wid expectedCmd : Nat)
  | deliver (a : Ack)
  | fireTimeout (wid : Nat)
  deriving DecidableEq

/-- `pending` is the global `pendingAckResolve` slot, identified by the
registering wait's id together with its expected command byte;
`resolved` records, per wait id, the first value its promise was
resolved with (later `resolve` calls on a settled promise are no-ops). -/
structure MailboxState where
  pending : Option (Nat × Nat)
  resolved : List (Nat × WaitResult)
  deriving DecidableEq

/-- Settle wait `wid`'s promise with `r` unless it is already settled:
a JavaScript promise keeps the first resolution. -/
def resolvePromise (resolved : List (Nat × WaitResult)) (wid : Nat) (r : WaitResult) :
    List (Nat × WaitResult) :=
  if resolved.any (fun p => p.1 == wid) then resolved else resolved ++ [(wid, r)]

/-- One mailbox event, exactly as the source handles it.  On `deliver`,
the installed resolver compares `ack.cmd` with its `expectedCmd` and
resolves with the ack or with the `unexpected cmd` failure (lines
748-757), and the slot is cleared (line 736).  On `fireTimeout wid`, the
callback checks only that the GLOBAL slot is non-null — not that the
slot still belongs to wait `wid` — then clears it and resolves wait
`wid` with `timeout` (lines 759-764). -/
def mailboxStep (s : MailboxState) (e : MailboxEvent) : MailboxState :=
  match e with
  | .register wid expectedCmd => { s with pending := some (wid, expectedCmd) }
  | .deliver a =>
    match s.pending with
    | none => s
    | some (wid, expectedCmd) =>
      { pending := none,
        resolved := resolvePromise s.resolved wid
          (if a.cmd = expectedCmd then .acked a else .unexpectedCmd) }
  | .fireTimeout wid =>
    match s.pending with
    | none => s
    | some _ =>
      { pending := none, resolved := resolvePromise s.resolved wid .timedOut }

/-- Run a sequence of mailbox events from the initial state (no pending
wait, no settled promise). -/
def mailboxRun (events : List MailboxEvent) : MailboxState :=
  events.foldl mailboxStep ⟨none, []⟩

/-- The value wait `wid`'s promise settled to, if any. -/
def resolutionOf (s : MailboxState) (wid : Nat) : Option WaitResult :=
  (s.resolved.find? (fun p => p.1 == wid)).map Prod.snd

/-- Two strictly sequential waits for command `0x51`, as in the chunk
transfer loop: wait 1 registers, an ack resolves it, wait 2 registers
only after that resolution, then wait 1's still-scheduled timeout
callback fires (the source never cancels it), then wait 2's ack arrives,
then wait 2's own timeout callback fires. -/
def sequentialWaitsTrace : List MailboxEvent :=
  [ .register 1 0x51,
    .deliver ⟨0x51, 0x10, []⟩,
    .register 2 0x51,
    .fireTimeout 1,
    .deliver ⟨0x51, 0x10, []⟩,
    .fireTimeout 2 ]

/-! ## Firmware analyzer (`analyzeFirmware`) -/

/-- Sum of all firmware bytes (`sum += bytes[i]`, ble-protocol.js lines
637-641).  JavaScript numbers are exact here: the sum of byte values
stays far below `2 ^ 53`. -/
def byteSum (bytes : List Nat) : Nat :=
  bytes.foldl (fun a b => a + b) 0

/-- The firmware checksum of `analyzeFirmware` (ble-protocol.js lines
643-645): `sum = sum >>> 0` reduces the sum modulo `2 ^ 32`, and
`(~sum) >>> 0` is the 32-bit ones'-complement, i.e.
`2 ^ 32 - 1 - (sum % 2 ^ 32)`. -/
def analyzeChecksum (bytes : List Nat) : Nat :=
  4294967295 - byteSum bytes % 4294967296

/-- The firmware classifications of `analyzeFirmware` (ble-protocol.js
lines 647-679), one constructor per distinct `firmwareType` string, with
the two bottom size branches also setting the two distinct
`sizeWarning` strings. -/
inductive FirmwareType where
  | ems
  | bmsNoSig
  | unknownEmptySig
  | bmsBySize
  | unknownSmall
  | unknownVerySmall
  deriving DecidableEq

/-- The ASCII bytes of the signature text `VenusC`. -/
def venusCSig : List Nat := [86, 101, 110, 117, 115, 67]

/-- Containment of `needle` as a contiguous byte run of `hay`.  This
models `signatureStr.includes('VenusC')` after the lossy UTF-8 decode of
the signature window: ASCII bytes decode to themselves and are never
merged into multi-byte sequences, so the decoded text contains the ASCII
string `VenusC` exactly when the bytes contain this run. -/
def listContains (needle hay : List Nat) : Bool :=
  hay.tails.any (fun t => needle.isPrefixOf t)

/-- The classification of `analyzeFirmware` (ble-protocol.js lines
647-679), in source branch order: signature check above
`0x50004 + 10` bytes, then the `>= 32768` and `>= 1024` size
heuristics. -/
def classifyFirmware (bytes : List Nat) : FirmwareType :=
  if 0x50004 + 10 < bytes.length then
    if listContains venusCSig ((bytes.drop 0x50004).take 10) then .ems
    else if ((bytes.drop 0x50004).take 10).any (fun b => !(b == 0x00) && !(b == 0xFF)) then
      .bmsNoSig
    else .unknownEmptySig
  else if 32768 ≤ bytes.length then .bmsBySize
  else if 1024 ≤ bytes.length then .unknownSmall
  else .unknownVerySmall

/-- `analyzeFirmware` returns the checksum together with the detected
type (its `size` field is just the input length). -/
def analyzeFirmware (bytes : List Nat) : Nat × FirmwareType :=
  (analyzeChecksum bytes, classifyFirmware bytes)

/-- A buffer of length `0x50010` whose 10-byte window at offset
`0x50004` holds the text `VenusC0000` (`0x30` is ASCII `0`). -/
def emsExampleBuffer : List Nat :=
  List.replicate 0x50004 0 ++ [86, 101, 110, 117, 115, 67, 48, 48, 48, 48] ++
    List.replicate 2 0

/-- The same buffer with the signature window zeroed. -/
def zeroedExampleBuffer : List Nat :=
  List.replicate 0x50004 0 ++ List.replicate 10 0 ++ List.replicate 2 0

/-! ## OTA chunk transfer loop (`performOTAUpdate` / `sendFirmwareChunk`) -/

/-- The chunk-transfer `while` loop of `performOTAUpdate`
(ble-protocol.js lines 1027-1054): while `offset < data.length`, slice
`data.slice(offset, min (offset + chunkSize) data.length)` — i.e.
`(data.drop offset).take chunkSize` — emit it with its offset, and
advance the offset by the chunk's length.  The loop advances by at
least one byte per iteration (for a positive chunk size), so
`data.length` units of fuel are exactly enough; the fuel only renders
the source's termination explicit. -/
def otaChunkGo (data : List Nat) (chunkSize : Nat) : Nat → Nat → List (Nat × List Nat)
  | 0, _ => []
  | fuel + 1, offset =>
    if offset < data.length then
      (offset, (data.drop offset).take chunkSize) ::
        otaChunkGo data chunkSize fuel (offset + ((data.drop offset).take chunkSize).length)
    else []

/-- The chunk sequence produced by the transfer loop, starting at
offset 0. -/
def otaChunks (data : List Nat) (chunkSize : Nat) : List (Nat × List Nat) :=
  otaChunkGo data chunkSize data.length 0

/-- The frame built by `sendFirmwareChunk` (ble-protocol.js lines
899-907): an OTA frame with command `0x51` and reserved byte `0x10`
whose payload is the 4-byte little-endian offset followed by the chunk
bytes (`(offset >> k) & 0xFF` is `offset / 2 ^ k % 256` for the
non-negative offsets used here). -/
def sendFirmwareChunkFrame (chunkData : List Nat) (offset : Nat) : List Nat :=
  createBLEOTAFrame 0x51 0x10
    ([offset % 256, offset / 256 % 256, offset / 65536 % 256, offset / 16777216 % 256] ++
      chunkData)

/-- The frames the transfer loop sends, in order: the source fixes the
chunk size at 128 (ble-protocol.js line 787) and calls
`sendFirmwareChunk` once per loop iteration, strictly sequentially. -/
def otaTransferFrames (data : List Nat) : List (List Nat) :=
  (otaChunks data 128).map (fun c => sendFirmwareChunkFrame c.2 c.1)

/-! ## Size acknowledgment verification (`sendFirmwareSize`) -/

/-- JavaScript `ToInt32`: the 32-bit value produced by a bitwise
operator, as a signed integer. -/
def toInt32 (n : Nat) : Int :=
  if n % 4294967296 < 2147483648 then ((n % 4294967296 : Nat) : Int)
  else ((n % 4294967296 : Nat) : Int) - 4294967296

/-- The echoed checksum reconstructed by `sendFirmwareSize`
(ble-protocol.js line 866):
`p4 | (p5 << 8) | (p6 << 16) | (p7 << 24)` with JavaScript signed 32-bit
bitwise semantics.  For byte-valued inputs the four operands occupy
disjoint bit ranges, so the untruncated combination is their sum; the
final `|` returns that value as a signed 32-bit integer. -/
def echoedChecksumJS (p4 p5 p6 p7 : Nat) : Int :=
  toInt32 (p4 % 256 + p5 % 256 * 256 + p6 % 256 * 65536 + p7 % 256 * 16777216)

/-- The 8-byte payload sent by `sendFirmwareSize` (ble-protocol.js lines
839-848): firmware size little-endian in 4 bytes, then the locally
computed unsigned checksum little-endian in 4 bytes. -/
def sizePayload (firmwareSize checksum : Nat) : List Nat :=
  [firmwareSize % 256, firmwareSize / 256 % 256, firmwareSize / 65536 % 256,
    firmwareSize / 16777216 % 256,
    checksum % 256, checksum / 256 % 256, checksum / 65536 % 256, checksum / 16777216 % 256]

/-- The ack-payload verification of `sendFirmwareSize` (ble-protocol.js
lines 864-872): when the ack payload has at least 8 bytes, compare the
reconstructed echoed checksum against the stored unsigned
`firmwareChecksum` with `===`; otherwise no comparison happens. -/
def checkEchoedChecksum (firmwareChecksum : Nat) (ackPayload : List Nat) : Option Bool :=
  if 8 ≤ ackPayload.length then
    some (decide (echoedChecksumJS (ackPayload.getD 4 0) (ackPayload.getD 5 0)
      (ackPayload.getD 6 0) (ackPayload.getD 7 0) = (firmwareChecksum : Int)))
  else none

/-! ## Helper lemmas -/

theorem map_mod256_of_lt : ∀ (l : List Nat), (∀ b ∈ l, b < 256) →
    l.map (fun b => b % 256) = l := by
  intro l h
  induction l with
  | nil => rfl
  | cons a t ih =>
    simp only [List.map_cons]
    rw [Nat.mod_eq_of_lt (h a (by simp)), ih (fun b hb => h b (by simp [hb]))]

theorem foldl_xor_lt_256 : ∀ (l : List Nat) (a : Nat), a < 256 → (∀ b ∈ l, b < 256) →
    l.foldl (fun x y => x ^^^ y) a < 256 := by
  intro l
  induction l with
  | nil => intro a ha _; simpa using ha
  | cons b t ih =>
    intro a ha h
    simp only [List.foldl_cons]
    refine ih (a ^^^ b) ?_ (fun x hx => h x (by simp [hx]))
    have hb : b < 256 := h b (by simp)
    have h256 : (256 : Nat) = 2 ^ 8 := by norm_num
    rw [h256] at ha hb ⊢
    exact Nat.xor_lt_two_pow ha hb

/-! ## Claim theorems -/

/-- C2 (code bug): in the trace of two strictly sequential waits where
the second registers only after the first resolved by a delivered ack,
the first wait's stale timeout callback clears the second wait's
resolver, the second wait's ack is then dropped, and its own timeout
callback finds the slot empty — so the second wait never resolves,
contradicting the claim that every wait resolves exactly once. -/
theorem waitForAck_second_wait_starves :
    resolutionOf (mailboxRun sequentialWaitsTrace) 1 = some (.acked ⟨0x51, 0x10, []⟩)
  ∧ resolutionOf (mailboxRun sequentialWaitsTrace) 2 = none := by decide

/-- C5: the OTA notification parser rejects with a malformed-header
error exactly when the first byte is not `0x73` or fewer than 6 bytes
arrived; rejects with a length-mismatch error exactly when the header is
well formed but the declared 16-bit little-endian length differs from
the received byte count; rejects with a checksum-mismatch error exactly
when additionally the XOR over all bytes but the last differs from the
trailing byte; and succeeds — with `cmd` = byte 3, `reserved` = byte 4,
and payload = bytes 5 through the second-to-last — exactly when all
three checks, applied in that order, pass. -/
theorem decodeOTA_characterization (v : List Nat) :
    (decodeOTA v = .error .malformedHeader ↔ v.length < 6 ∨ v.getD 0 0 ≠ 0x73)
  ∧ (decodeOTA v = .error .lengthMismatch ↔
      6 ≤ v.length ∧ v.getD 0 0 = 0x73 ∧
      v.getD 1 0 ||| (v.getD 2 0 <<< 8) ≠ v.length)
  ∧ (decodeOTA v = .error .checksumMismatch ↔
      6 ≤ v.length ∧ v.getD 0 0 = 0x73 ∧
      v.getD 1 0 ||| (v.getD 2 0 <<< 8) = v.length ∧
      (v.take (v.length - 1)).foldl (fun a b => a ^^^ b) 0 ≠ v.getD (v.length - 1) 0)
  ∧ (decodeOTA v = .ok ⟨v.getD 3 0, v.getD 4 0, (v.drop 5).dropLast⟩ ↔
      6 ≤ v.length ∧ v.getD 0 0 = 0x73 ∧
      v.getD 1 0 ||| (v.getD 2 0 <<< 8) = v.length ∧
      (v.take (v.length - 1)).foldl (fun a b => a ^^^ b) 0 = v.getD (v.length - 1) 0) := by
  unfold decodeOTA
  split_ifs with h1 h2 h3 <;>
    refine ⟨?_, ?_, ?_, ?_⟩ <;> simp_all <;> omega

/-- C4 (counterexample): for command byte `0x03` and the empty payload
the standard command frame's length byte is `5`, not
`4 + payload.length = 4` as claimed. -/
theorem createCommandMessage_len_counterexample :
    ¬ ((createCommandMessage 0x03 []).getD 1 0 = 4 + ([] : List Nat).length) := by decide

/-- C4 (amended): for every command byte and byte-valued payload (of
transferable size), `createCommandMessage` returns
`[0x73][totalLen][0x23][cmd][payload...][xor]` where `totalLen` is
`5 + payload.length` — the full frame length, including the length byte
itself — and `xor` is the XOR of every byte of the frame preceding
it. -/
theorem createCommandMessage_frame (cmd : Nat) (p : List Nat)
    (hc : cmd < 256) (hp : ∀ b ∈ p, b < 256) (hl : p.length ≤ 250) :
    createCommandMessage cmd p =
      0x73 :: (5 + p.length) :: 0x23 :: cmd ::
        (p ++ [(0x73 :: (5 + p.length) :: 0x23 :: cmd :: p).foldl (fun a b => a ^^^ b) 0]) := by
  have h5 : 4 + p.length + 1 = 5 + p.length := by omega
  have hmsg : ∀ b ∈ (0x73 :: (5 + p.length) :: 0x23 :: cmd :: p), b < 256 := by
    intro b hb
    simp only [List.mem_cons] at hb
    rcases hb with h | h | h | h | h
    · omega
    · omega
    · omega
    · omega
    · exact hp b h
  have hfold : (0x73 :: (5 + p.length) :: 0x23 :: cmd :: p).foldl (fun a b => a ^^^ b) 0 < 256 :=
    foldl_xor_lt_256 _ 0 (by norm_num) hmsg
  simp only [createCommandMessage, h5]
  rw [map_mod256_of_lt]
  · rfl
  intro b hb
  rcases List.mem_append.mp hb with h | h
  · exact hmsg b h
  · have hbf : b = (0x73 :: (5 + p.length) :: 0x23 :: cmd :: p).foldl (fun a b => a ^^^ b) 0 := by
      simpa using h
    exact hbf ▸ hfold

/-- C4 (witness): the amended frame shape at command `0x03`, empty
payload. -/
theorem createCommandMessage_frame_witness :
    createCommandMessage 0x03 [] = [0x73, 0x05, 0x23, 0x03, 0x56] := by
  rw [createCommandMessage_frame 0x03 [] (by norm_num) (by simp) (by simp)]
  decide

/-- C9: for every command byte and byte-valued payload (of transferable
size), `createMeterIPMessage` returns
`[0x73][len][0x23][cmd][payload...][xor]` with `len = 4 + payload.length`
and `xor` the XOR of only `0x23`, `cmd` and the payload bytes — the
`0x73` header and the length byte are excluded from the checksum. -/
theorem createMeterIPMessage_frame (cmd : Nat) (p : List Nat)
    (hc : cmd < 256) (hp : ∀ b ∈ p, b < 256) (hl : p.length ≤ 251) :
    createMeterIPMessage cmd p =
      0x73 :: (4 + p.length) :: 0x23 :: cmd ::
        (p ++ [p.foldl (fun a b => a ^^^ b) (0x23 ^^^ cmd)]) := by
  have hinit : (0x23 ^^^ cmd) < 256 := by
    have h256 : (256 : Nat) = 2 ^ 8 := by norm_num
    rw [h256]
    exact Nat.xor_lt_two_pow (by norm_num) (h256 ▸ hc)
  have hfold : p.foldl (fun a b => a ^^^ b) (0x23 ^^^ cmd) < 256 :=
    foldl_xor_lt_256 p _ hinit hp
  simp only [createMeterIPMessage]
  rw [map_mod256_of_lt]
  · rfl
  intro b hb
  rcases List.mem_append.mp hb with h | h
  · simp only [List.mem_cons] at h
    rcases h with h | h | h | h | h
    · omega
    · omega
    · omega
    · omega
    · exact hp b h
  · have hbf : b = p.foldl (fun a b => a ^^^ b) (0x23 ^^^ cmd) := by simpa using h
    exact hbf ▸ hfold

/-- C9 (witness): the meter-IP frame at command `0x21`, payload
`[0x0B]`: length `5`, checksum `0x23 ^ 0x21 ^ 0x0B = 0x09`. -/
theorem createMeterIPMessage_frame_witness :
    createMeterIPMessage 0x21 [0x0B] = [0x73, 0x05, 0x23, 0x21, 0x0B, 0x09] := by
  rw [createMeterIPMessage_frame 0x21 [0x0B] (by norm_num) (by simp) (by simp)]
  decide

/-- C1 (counterexample): the OTA round-trip fails at command `0x50`,
reserved `0x10`, empty payload: the decoder rejects the encoder's own
output with a length mismatch instead of succeeding. -/
theorem otaFrame_roundtrip_counterexample :
    decodeOTA (createBLEOTAFrame 0x50 0x10 []) ≠ .ok ⟨0x50, 0x10, []⟩
  ∧ decodeOTA (createBLEOTAFrame 0x50 0x10 []) = .error .lengthMismatch := by decide

/-- C1 (amended): for every command byte, reserved byte and payload of
length 0 through 250, feeding the OTA frame encoder's bytes to the OTA
notification decoder fails with a length mismatch: the encoder's
declared 16-bit little-endian length counts `cmd+reserved+payload+
checksum` (`payload.length + 3`) while the decoder requires the declared
length to equal the entire received byte count (`payload.length + 6`). -/
theorem otaFrame_roundtrip_lengthMismatch (cmd reserved : Nat) (p : List Nat)
    (hl : p.length ≤ 250) :
    (createBLEOTAFrame cmd reserved p).getD 1 0 = p.length + 3
  ∧ (createBLEOTAFrame cmd reserved p).length = p.length + 6
  ∧ decodeOTA (createBLEOTAFrame cmd reserved p) = .error .lengthMismatch := by
  have ht : 1 + 1 + p.length + 1 = p.length + 3 := by omega
  have hmod : (p.length + 3) % 256 = p.length + 3 := Nat.mod_eq_of_lt (by omega)
  have hdiv : (p.length + 3) / 256 = 0 := Nat.div_eq_of_lt (by omega)
  have hframe : createBLEOTAFrame cmd reserved p =
      0x73 :: (p.length + 3) :: 0 :: cmd % 256 :: reserved % 256 ::
        (p.map (fun b => b % 256) ++
          [(0x73 :: (p.length + 3) :: 0 :: cmd :: reserved :: p).foldl
            (fun a b => a ^^^ b) 0 % 256]) := by
    simp only [createBLEOTAFrame, ht, hmod, hdiv]
    simp [List.map_append]
    omega
  rw [hframe]
  have hlen : (0x73 :: (p.length + 3) :: 0 :: cmd % 256 :: reserved % 256 ::
      (p.map (fun b => b % 256) ++
        [(0x73 :: (p.length + 3) :: 0 :: cmd :: reserved :: p).foldl
          (fun a b => a ^^^ b) 0 % 256])).length = p.length + 6 := by
    simp [List.length_append]
  refine ⟨rfl, hlen, ?_⟩
  unfold decodeOTA
  rw [if_neg, if_pos]
  · rw [hlen]
    simp only [List.getD_cons_succ, List.getD_cons_zero]
    rw [Nat.zero_shiftLeft, Nat.or_zero]
    omega
  · rw [hlen]
    simp only [List.getD_cons_zero]
    omega

/-- C1 (witness): the amended statement at command `0x50`, reserved
`0x10`, empty payload. -/
theorem otaFrame_roundtrip_lengthMismatch_witness :
    decodeOTA (createBLEOTAFrame 0x50 0x10 []) = .error .lengthMismatch :=
  (otaFrame_roundtrip_lengthMismatch 0x50 0x10 [] (by decide)).2.2

/-- C3: every notification matching the OTA-ack shape (length at least
6, first byte `0x73`, declared 16-bit length greater than 5, byte 3
equal to `0xFF`, byte 4 equal to `0x01`) is routed to the OTA-ack
handler regardless of any outstanding activation wait (its command byte
`0xFF` can never match the activation command `0x1F`) and regardless of
any outstanding generic command; the handler's result is always either
a delivered acknowledgment (on a valid decode) or a dropped frame (on a
decode failure) — never anything that aborts the session. -/
theorem routeNotification_ack_shape (bytes : List Nat) (aw g : Bool)
    (h : 6 ≤ bytes.length ∧ bytes.getD 0 0 = 0x73 ∧
      5 < bytes.getD 1 0 ||| (bytes.getD 2 0 <<< 8) ∧
      bytes.getD 3 0 = 0xFF ∧ bytes.getD 4 0 = 0x01) :
    routeNotification aw g bytes = handleOTAAck bytes
  ∧ (∀ a : Ack, decodeOTA bytes = .ok a →
      routeNotification aw g bytes = .ackDelivered a)
  ∧ (∀ e : DecodeError, decodeOTA bytes = .error e →
      routeNotification aw g bytes = .ackDropped e) := by
  obtain ⟨h1, h2, h3, h4, h5⟩ := h
  have hroute : routeNotification aw g bytes = handleOTAAck bytes := by
    unfold routeNotification
    rw [if_neg, if_pos]
    · exact ⟨h1, h2, h3, h4, h5⟩
    · rintro ⟨-, -, -, -, hact⟩
      omega
  refine ⟨hroute, ?_, ?_⟩
  · intro a ha
    rw [hroute]
    unfold handleOTAAck
    rw [ha]
  · intro e he
    rw [hroute]
    unfold handleOTAAck
    rw [he]

/-- C3 (witness): a well-formed ack frame is delivered to the mailbox
even while an activation wait and a generic command are outstanding. -/
theorem routeNotification_ack_shape_witness :
    routeNotification true true ackFrameExample = .ackDelivered ⟨0xFF, 0x01, [0x00, 0x00]⟩ :=
  (routeNotification_ack_shape ackFrameExample true true (by decide)).2.1
    ⟨0xFF, 0x01, [0x00, 0x00]⟩ (by decide)

/-- C7: the firmware checksum is the 32-bit ones'-complement of the
byte sum with 32-bit wraparound — it adds with the wrapped sum to
`2 ^ 32 - 1` and lies below `2 ^ 32` — and for the bytes
`[0x01, 0x02, 0x03]` the sum is 6 and the checksum `0xFFFFFFF9`. -/
theorem analyzeFirmware_checksum :
    (∀ bytes : List Nat,
      analyzeChecksum bytes + byteSum bytes % 4294967296 = 4294967295
      ∧ analyzeChecksum bytes < 4294967296)
  ∧ byteSum [0x01, 0x02, 0x03] = 6
  ∧ analyzeChecksum [0x01, 0x02, 0x03] = 0xFFFFFFF9 := by
  refine ⟨?_, by decide, by decide⟩
  intro bytes
  have hm : byteSum bytes % 4294967296 < 4294967296 := Nat.mod_lt _ (by norm_num)
  unfold analyzeChecksum
  omega

/-- C10: `sendFirmwareSize` reconstructs the echoed checksum as a
signed 32-bit value but stores the local checksum unsigned, so an ack
that echoes byte-for-byte the checksum bytes that were sent compares
equal exactly when the wrapped byte sum is at least `0x80000000`
(i.e. the checksum's top bit is clear); for every firmware whose wrapped
byte sum is below `0x80000000` the byte-exact echo is reported as a
mismatch. -/
theorem sendFirmwareSize_checksum_echo_sign (fw : List Nat) (size : Nat) :
    checkEchoedChecksum (analyzeChecksum fw) (sizePayload size (analyzeChecksum fw)) =
      some (decide (2147483648 ≤ byteSum fw % 4294967296)) := by
  have hs32 : byteSum fw % 4294967296 < 4294967296 := Nat.mod_lt _ (by norm_num)
  have hcs : analyzeChecksum fw = 4294967295 - byteSum fw % 4294967296 := rfl
  set c := analyzeChecksum fw with hc
  have hclt : c < 4294967296 := by omega
  have key : (echoedChecksumJS (c % 256) (c / 256 % 256) (c / 65536 % 256)
      (c / 16777216 % 256) = (c : Int)) ↔ 2147483648 ≤ byteSum fw % 4294967296 := by
    unfold echoedChecksumJS toInt32
    have hre : c % 256 % 256 + c / 256 % 256 % 256 * 256 + c / 65536 % 256 % 256 * 65536 +
        c / 16777216 % 256 % 256 * 16777216 = c := by omega
    rw [hre, Nat.mod_eq_of_lt hclt]
    by_cases hlt : c < 2147483648
    · rw [if_pos hlt]
      constructor
      · intro _
        omega
      · intro _
        rfl
    · rw [if_neg hlt]
      constructor
      · intro hEq
        exfalso
        omega
      · intro hsum
        exfalso
        omega
  unfold checkEchoedChecksum sizePayload
  rw [if_pos (by simp)]
  simp only [List.getD_cons_succ, List.getD_cons_zero]
  exact congrArg some (decide_eq_decide.mpr key)

/-- C10 (illustration): for the empty firmware the checksum is
`0xFFFFFFFF`; its sign bit is set, so its own byte-exact echo is
reported as a mismatch. -/
theorem sendFirmwareSize_checksum_echo_sign_example :
    checkEchoedChecksum (analyzeChecksum []) (sizePayload 0 (analyzeChecksum [])) =
      some false := by decide

theorem otaChunkGo_getElem? (data : List Nat) :
    ∀ (fuel offset n : Nat), data.length ≤ offset + fuel →
    (otaChunkGo data 128 fuel offset)[n]? =
      if offset + 128 * n < data.length then
        some (offset + 128 * n, (data.drop (offset + 128 * n)).take 128)
      else none := by
  intro fuel
  induction fuel with
  | zero =>
    intro offset n hf
    rw [if_neg (by omega)]
    simp [otaChunkGo]
  | succ fuel ih =>
    intro offset n hf
    by_cases h : offset < data.length
    · have hcl : ((data.drop offset).take 128).length = min 128 (data.length - offset) := by
        simp [List.length_take, List.length_drop]
      simp only [otaChunkGo, if_pos h]
      cases n with
      | zero =>
        rw [if_pos (by omega)]
        simp
      | succ n =>
        rw [List.getElem?_cons_succ]
        rw [ih (offset + ((data.drop offset).take 128).length) n (by omega)]
        rw [hcl]
        rcases le_or_lt 128 (data.length - offset) with hbig | hsmall
        · have hmin : min 128 (data.length - offset) = 128 := by omega
          rw [hmin]
          have harith : offset + 128 + 128 * n = offset + 128 * (n + 1) := by ring
          rw [harith]
        · have hmin : min 128 (data.length - offset) = data.length - offset := by omega
          rw [hmin]
          rw [if_neg (by omega), if_neg (by omega)]
    · simp only [otaChunkGo, if_neg h]
      rw [if_neg (by omega)]
      simp

set_option maxRecDepth 8192 in
/-- C6: over a 300-byte firmware buffer with chunk size 128 the
transfer loop of `performOTAUpdate` produces exactly 3 chunks of sizes
`[128, 128, 44]` at offsets `[0, 128, 256]`; in general the `n`-th loop
iteration slices `min 128 remaining` bytes at the running offset
`128 * n` and sends, strictly in sequence, the OTA frame with command
`0x51` and reserved byte `0x10` whose payload is the 4-byte
little-endian offset followed by the chunk bytes. -/
theorem performOTAUpdate_chunking :
    ((otaChunks (List.replicate 300 0) 128).map (fun c => (c.1, c.2.length)) =
      [(0, 128), (128, 128), (256, 44)])
  ∧ (∀ (data : List Nat) (n : Nat),
      (otaChunks data 128)[n]? =
        if 128 * n < data.length then
          some (128 * n, (data.drop (128 * n)).take 128)
        else none)
  ∧ (∀ (data : List Nat) (n : Nat),
      (otaTransferFrames data)[n]? =
        if 128 * n < data.length then
          some (sendFirmwareChunkFrame ((data.drop (128 * n)).take 128) (128 * n))
        else none) := by
  have hgen : ∀ (data : List Nat) (n : Nat),
      (otaChunks data 128)[n]? =
        if 128 * n < data.length then some (128 * n, (data.drop (128 * n)).take 128)
        else none := by
    intro data n
    have hbase := otaChunkGo_getElem? data data.length 0 n (by omega)
    simpa [otaChunks] using hbase
  refine ⟨by decide, hgen, ?_⟩
  intro data n
  unfold otaTransferFrames
  rw [List.getElem?_map, hgen data n]
  by_cases h : 128 * n < data.length
  · rw [if_pos h, if_pos h]
    rfl
  · rw [if_neg h, if_neg h]
    rfl

/-- C8: the classification follows the source's priority order — above
the signature threshold: `VenusC` in the window gives EMS/Control, else
any byte other than `0x00`/`0xFF` in the window gives BMS, else the
signature area is empty; below the threshold the `32768` and `1024`
size heuristics apply.  Concretely, a buffer of length `0x50010` with
`VenusC0000` at offset `0x50004` classifies as EMS/Control, and the
same buffer with that window zeroed as Unknown (signature area
empty). -/
theorem analyzeFirmware_classification :
    (∀ v : List Nat,
      (classifyFirmware v = .ems ↔
        0x50004 + 10 < v.length ∧
        listContains venusCSig ((v.drop 0x50004).take 10) = true)
      ∧ (classifyFirmware v = .bmsNoSig ↔
        0x50004 + 10 < v.length ∧
        ¬ listContains venusCSig ((v.drop 0x50004).take 10) = true ∧
        ((v.drop 0x50004).take 10).any (fun b => !(b == 0x00) && !(b == 0xFF)) = true)
      ∧ (classifyFirmware v = .unknownEmptySig ↔
        0x50004 + 10 < v.length ∧
        ¬ listContains venusCSig ((v.drop 0x50004).take 10) = true ∧
        ¬ ((v.drop 0x50004).take 10).any (fun b => !(b == 0x00) && !(b == 0xFF)) = true)
      ∧ (classifyFirmware v = .bmsBySize ↔
        ¬ (0x50004 + 10 < v.length) ∧ 32768 ≤ v.length)
      ∧ (classifyFirmware v = .unknownSmall ↔
        ¬ (0x50004 + 10 < v.length) ∧ ¬ (32768 ≤ v.length) ∧ 1024 ≤ v.length)
      ∧ (classifyFirmware v = .unknownVerySmall ↔
        ¬ (0x50004 + 10 < v.length) ∧ ¬ (32768 ≤ v.length) ∧ ¬ (1024 ≤ v.length)))
  ∧ classifyFirmware emsExampleBuffer = .ems
  ∧ classifyFirmware zeroedExampleBuffer = .unknownEmptySig := by
  have hlen1 : emsExampleBuffer.length = 0x50010 := by
    unfold emsExampleBuffer
    rw [List.length_append, List.length_append, List.length_replicate,
      List.length_replicate]
    rfl
  have hwin1 : (emsExampleBuffer.drop 0x50004).take 10 =
      [86, 101, 110, 117, 115, 67, 48, 48, 48, 48] := by
    unfold emsExampleBuffer
    rw [List.append_assoc, List.drop_left' (by rw [List.length_replicate]),
      List.take_left' (by rfl)]
  have hlen2 : zeroedExampleBuffer.length = 0x50010 := by
    unfold zeroedExampleBuffer
    rw [List.length_append, List.length_append, List.length_replicate,
      List.length_replicate, List.length_replicate]
  have hwin2 : (zeroedExampleBuffer.drop 0x50004).take 10 = List.replicate 10 0 := by
    unfold zeroedExampleBuffer
    rw [List.append_assoc, List.drop_left' (by rw [List.length_replicate]),
      List.take_left' (by rw [List.length_replicate])]
  refine ⟨?_, ?_, ?_⟩
  · intro v
    unfold classifyFirmware
    split_ifs with h1 h2 h3 h4 h5 <;> refine ⟨?_, ?_, ?_, ?_, ?_, ?_⟩ <;> simp_all <;>
      assumption
  · unfold classifyFirmware
    rw [hlen1, hwin1]
    rw [if_pos (by norm_num), if_pos (by decide)]
  · unfold classifyFirmware
    rw [hlen2, hwin2]
    rw [if_pos (by norm_num), if_neg (by decide), if_neg (by decide)]

end MarstekBLE
